import Mathlib

/-!
# Verification of the `WebsiteCrawler` core (src/web_crawler.py)

Shallow embedding of the crawl engine: URL filtering (`is_valid_url`),
link extraction (`extract_links`), structured-data extraction
(`extract_structured_data`), content extraction (`extract_page_content`)
and the frontier/crawl loop (`crawl`).

A URL is modelled as its parse into components (`Url`), with `urlString`
recovering the raw string the Python code holds; the network is an oracle
`Web : Url → Option FetchResponse` (`none` = the fetch raised), and a parsed
document (`Soup`) carries the data BeautifulSoup queries return: title,
meta-description tag, post-strip body text, headings in document order,
anchors (raw `href` plus its `urljoin` resolution against the page URL),
paragraph texts, question-candidate elements with their following
paragraph, JSON-LD blocks (`none` = parse failure), microdata item types,
and the image count.  The crawl loop is iterated with explicit fuel: the
state after `k` iterations of the Python `while` loop is
`crawlLoop web k st`, so a property proved for every fuel value holds at
every point of the run, including termination.
-/

namespace GeoWeb

/-- Parsed URL, as produced by `urllib.parse.urlparse`. -/
structure Url where
  scheme : String
  netloc : String
  path : String
  query : String
  fragment : String
deriving DecidableEq, Repr

/-- The raw URL string a `Url` parses from (inverse of `urlparse`,
mirroring `urllib.parse.urlunparse`). -/
def urlString (u : Url) : String :=
  (if u.scheme = "" then "" else u.scheme ++ ":")
    ++ (if u.netloc = "" then "" else "//" ++ u.netloc)
    ++ u.path
    ++ (if u.query = "" then "" else "?" ++ u.query)
    ++ (if u.fragment = "" then "" else "#" ++ u.fragment)

/-- One entry of a page's heading list: `{"level": i, "text": ...}`. -/
structure Heading where
  level : Nat
  text : String
deriving DecidableEq, Repr

/-- One question/answer pair. -/
structure QA where
  question : String
  answer : String
deriving DecidableEq, Repr

/-- The per-page record returned by `extract_page_content`. -/
structure PageRecord where
  url : Url
  title : String
  meta_description : String
  word_count : Nat
  headings : List Heading
  paragraphs : List String
  qa_pairs : List QA
  full_text : String
deriving DecidableEq, Repr

/-- Payload of a structured-data record: one parsed JSON-LD object
(represented opaquely by its text) or the list of microdata items. -/
inductive SDData where
  | jsonLd (payload : String)
  | micro (items : List (String × Url))
deriving DecidableEq, Repr

/-- One structured-data record. -/
structure StructuredDataRecord where
  url : Url
  type : String
  data : SDData
deriving DecidableEq, Repr

/-- The `heading_count` defaultdict, keys `"h1"`..`"h6"`. -/
structure HeadingCounts where
  h1 : Nat
  h2 : Nat
  h3 : Nat
  h4 : Nat
  h5 : Nat
  h6 : Nat
deriving DecidableEq, Repr

/-- `self.site_metadata`.  `avg_word_count` is absent from the dict until
finalization, modelled as `Option`; the Python float division is modelled
exactly in `ℚ`. -/
structure SiteMetadata where
  title : String
  description : String
  domain : String
  pages_crawled : Nat
  total_word_count : Nat
  heading_count : HeadingCounts
  has_schema_markup : Bool
  internal_links : Nat
  external_links : Nat
  image_count : Nat
  pages_with_thin_content : Nat
  avg_word_count : Option ℚ
deriving DecidableEq, Repr

/-- A `<meta name="description">` tag; `content` is its (optional)
`content` attribute. -/
structure MetaTag where
  content : Option String
deriving DecidableEq, Repr

/-- An anchor element: the raw (already stripped) `href` attribute and the
absolute URL `urljoin(current_url, href)` resolves it to. -/
structure Anchor where
  href : String
  resolved : Url
deriving DecidableEq, Repr

/-- A question-candidate element (`h2`/`h3`/`h4`/`strong`): its string and
the text of the next `<p>` in document order, if any. -/
structure QElem where
  text : String
  nextP : Option String
deriving DecidableEq, Repr

/-- A parsed document, after the non-content subtrees
(`script`, `style`, `noscript`, `iframe`, `head`) are removed. -/
structure Soup where
  title : Option String
  metaDescTag : Option MetaTag
  bodyText : String
  headings : List (Nat × String)
  anchors : List Anchor
  paragraphs : List String
  questionElems : List QElem
  jsonLdBlocks : List (Option String)
  microdataItems : List String
  imageCount : Nat
deriving DecidableEq, Repr

/-- Crawler session state (`self` of `WebsiteCrawler`).  The Python
`visited_urls` set is a list that, starting from `initState`, only ever
receives elements guarded by non-membership, so its length is the set's
cardinality. -/
structure CrawlerState where
  start_url : Url
  max_pages : Nat
  same_domain_only : Bool
  visited_urls : List Url
  to_visit : List Url
  domain : String
  pages_data : List PageRecord
  structured_data : List StructuredDataRecord
  site_metadata : SiteMetadata
deriving DecidableEq, Repr

/-- `WebsiteCrawler.__init__`. -/
def initState (start_url : Url) (max_pages : Nat) (same_domain_only : Bool) :
    CrawlerState where
  start_url := start_url
  max_pages := max_pages
  same_domain_only := same_domain_only
  visited_urls := []
  to_visit := [start_url]
  domain := start_url.netloc
  pages_data := []
  structured_data := []
  site_metadata :=
    { title := ""
      description := ""
      domain := start_url.netloc
      pages_crawled := 0
      total_word_count := 0
      heading_count := ⟨0, 0, 0, 0, 0, 0⟩
      has_schema_markup := false
      internal_links := 0
      external_links := 0
      image_count := 0
      pages_with_thin_content := 0
      avg_word_count := none }

/-- `s.endswith(t)` (kernel-computable form of `String.endsWith`). -/
def strEndsWith (s t : String) : Bool :=
  t.toList.isSuffixOf s.toList

/-- `s.startswith(t)` (kernel-computable form of `String.startsWith`). -/
def strStartsWith (s t : String) : Bool :=
  t.toList.isPrefixOf s.toList

/-- `s.strip()` (kernel-computable form of `String.trim`). -/
def strTrim (s : String) : String :=
  List.asString
    (((s.toList.dropWhile Char.isWhitespace).reverse.dropWhile
      Char.isWhitespace).reverse)

/-- The suffix tuple of `url.endswith((...))` in `is_valid_url`. -/
def nonContentExts : List String :=
  [".jpg", ".jpeg", ".png", ".gif", ".pdf", ".zip", ".css", ".js"]

/-- `WebsiteCrawler.is_valid_url`. -/
def is_valid_url (st : CrawlerState) (u : Url) : Bool :=
  if urlString u = "" ∨ u ∈ st.visited_urls then false
  else if u.fragment ≠ "" then false
  else if st.same_domain_only = true ∧ u.netloc ≠ st.domain then false
  else if nonContentExts.any (fun e => strEndsWith (urlString u) e) then false
  else true

/-- Body of the `extract_links` loop over anchors: skip empty and
non-navigational hrefs, filter through `is_valid_url`, and count the
accepted URL as internal or external. -/
def linkStep (st : CrawlerState) (acc : List Url × SiteMetadata) (a : Anchor) :
    List Url × SiteMetadata :=
  let href := strTrim a.href
  if href ≠ "" ∧ ¬ (strStartsWith href "javascript:" = true
      ∨ strStartsWith href "mailto:" = true
      ∨ strStartsWith href "tel:" = true) then
    if is_valid_url st a.resolved then
      (acc.1 ++ [a.resolved],
        if a.resolved.netloc = st.domain then
          { acc.2 with internal_links := acc.2.internal_links + 1 }
        else
          { acc.2 with external_links := acc.2.external_links + 1 })
    else acc
  else acc

/-- `WebsiteCrawler.extract_links`: returns the accepted links in order and
the site metadata with the internal/external counters updated.  (`urljoin`
resolution is carried by each anchor's `resolved` field.) -/
def extract_links (st : CrawlerState) (soup : Soup) : List Url × SiteMetadata :=
  soup.anchors.foldl (linkStep st) ([], st.site_metadata)

/-- `WebsiteCrawler.extract_structured_data`: JSON-LD records for every
block that parses, then one Microdata record if any `itemscope` element has
a non-empty `itemtype`; the `Bool` is whether `has_schema_markup` was set. -/
def extract_structured_data (soup : Soup) (url : Url) :
    List StructuredDataRecord × Bool :=
  let jsonRecs := soup.jsonLdBlocks.filterMap
    (fun b => b.map (fun payload => ⟨url, "JSON-LD", .jsonLd payload⟩))
  let items := soup.microdataItems.filterMap
    (fun t => if t ≠ "" then some (t, url) else none)
  let recs := jsonRecs ++
    (if items ≠ [] then [⟨url, "Microdata", .micro items⟩] else [])
  (recs, soup.jsonLdBlocks.any Option.isSome || decide (items ≠ []))

/-- Single-pass whitespace tokenizer (accumulates the current token in
reverse). -/
def splitWsAux : List Char → List Char → List (List Char)
  | [], acc => if acc.isEmpty then [] else [acc.reverse]
  | c :: cs, acc =>
    if c.isWhitespace then
      if acc.isEmpty then splitWsAux cs []
      else acc.reverse :: splitWsAux cs []
    else splitWsAux cs (c :: acc)

/-- Whitespace tokenization, as Python's `str.split()` with no
arguments. -/
def splitWs (s : String) : List String :=
  (splitWsAux s.toList []).map List.asString

/-- `re.sub(r'\s+', ' ', text).strip()`: collapse whitespace runs to one
space and trim the ends. -/
def cleanText (s : String) : String :=
  String.intercalate " " (splitWs s)

/-- `word_count = len(cleaned_text.split())`. -/
def pageWordCount (soup : Soup) : Nat :=
  (splitWs (cleanText soup.bodyText)).length

/-- `soup.title.string.strip() if soup.title else ""`. -/
def pageTitle (soup : Soup) : String :=
  match soup.title with
  | some t => strTrim t
  | none => ""

/-- The meta description: `meta_tag.get('content', '')` when the tag
exists, `""` otherwise. -/
def pageMetaDesc (soup : Soup) : String :=
  match soup.metaDescTag with
  | some m => m.content.getD ""
  | none => ""

/-- `soup.find_all(f'h{i}')` mapped to `{"level": i, "text": ...}`
entries, in document order. -/
def headingBlock (soup : Soup) (i : Nat) : List Heading :=
  (soup.headings.filter (fun p => p.1 = i)).map (fun p => ⟨i, p.2⟩)

/-- The page's heading list: the `for i in range(1, 7)` loop unrolled, so
all level-1 headings come first, then level-2, and so on. -/
def pageHeadings (soup : Soup) : List Heading :=
  headingBlock soup 1 ++ headingBlock soup 2 ++ headingBlock soup 3 ++
    headingBlock soup 4 ++ headingBlock soup 5 ++ headingBlock soup 6

/-- Q/A heuristic: question-candidate elements whose string contains `?`,
paired with the next paragraph; dropped when no paragraph follows. -/
def pageQAs (soup : Soup) : List QA :=
  soup.questionElems.filterMap (fun q =>
    if q.text.toList.contains '?' then
      match q.nextP with
      | some a => some ⟨q.text, a⟩
      | none => none
    else none)

/-- Number of `h{i}` elements on the page. -/
def headingLevelCount (soup : Soup) (i : Nat) : Nat :=
  (soup.headings.filter (fun p => p.1 = i)).length

/-- The `heading_count[f'h{i}'] += ...` loop for `i` in 1..6, unrolled. -/
def addHeadingCounts (hc : HeadingCounts) (soup : Soup) : HeadingCounts :=
  { h1 := hc.h1 + headingLevelCount soup 1
    h2 := hc.h2 + headingLevelCount soup 2
    h3 := hc.h3 + headingLevelCount soup 3
    h4 := hc.h4 + headingLevelCount soup 4
    h5 := hc.h5 + headingLevelCount soup 5
    h6 := hc.h6 + headingLevelCount soup 6 }

/-- The site-metadata mutations `extract_page_content` performs: seed-page
title/description, total word count, thin-content counter, per-level
heading counts, image count. -/
def updateMetaForPage (st : CrawlerState) (md : SiteMetadata) (soup : Soup)
    (url : Url) : SiteMetadata :=
  let md1 := if url = st.start_url then { md with title := pageTitle soup } else md
  let md2 := match soup.metaDescTag with
    | some m =>
      if url = st.start_url then { md1 with description := m.content.getD "" }
      else md1
    | none => md1
  let md3 := { md2 with
    total_word_count := md2.total_word_count + pageWordCount soup }
  let md4 := if pageWordCount soup < 300 then
      { md3 with pages_with_thin_content := md3.pages_with_thin_content + 1 }
    else md3
  let md5 := { md4 with heading_count := addHeadingCounts md4.heading_count soup }
  { md5 with image_count := md5.image_count + soup.imageCount }

/-- The dict `extract_page_content` returns. -/
def buildPageRecord (soup : Soup) (url : Url) : PageRecord where
  url := url
  title := pageTitle soup
  meta_description := pageMetaDesc soup
  word_count := pageWordCount soup
  headings := pageHeadings soup
  paragraphs := soup.paragraphs.filter (fun p => p ≠ "")
  qa_pairs := pageQAs soup
  full_text := cleanText soup.bodyText

/-- `WebsiteCrawler.extract_page_content`: the page record together with
the updated site metadata. -/
def extract_page_content (st : CrawlerState) (md : SiteMetadata) (soup : Soup)
    (url : Url) : PageRecord × SiteMetadata :=
  (buildPageRecord soup url, updateMetaForPage st md soup url)

/-- An HTTP response: status code, `Content-Type` header and the parsed
document of the body. -/
structure FetchResponse where
  status_code : Nat
  content_type : String
  soup : Soup

/-- The network oracle; `none` models `requests.get` raising. -/
def Web : Type := Url → Option FetchResponse

/-- Substring containment on character lists. -/
def containsSublist (needle : List Char) : List Char → Bool
  | [] => needle.isEmpty
  | c :: cs => needle.isPrefixOf (c :: cs) || containsSublist needle cs

/-- `needle in hay` on strings. -/
def strContainsSub (hay needle : String) : Bool :=
  containsSublist needle.toList hay.toList

/-- `response.status_code == 200 and 'text/html' in Content-Type`. -/
def respOk (r : FetchResponse) : Bool :=
  decide (r.status_code = 200) && strContainsSub r.content_type "text/html"

/-- The fetch of `u` fails: the request raises, the status is not 200, or
the content type is not HTML. -/
def fetchFails (web : Web) (u : Url) : Bool :=
  match web u with
  | none => true
  | some r => ! respOk r

/-- The enqueue loop: append each link not already visited and not already
queued (checked against the queue as it grows). -/
def enqueueLinks (visited : List Url) (to_visit : List Url)
    (links : List Url) : List Url :=
  links.foldl
    (fun tv l => if l ∉ visited ∧ l ∉ tv then tv ++ [l] else tv) to_visit

/-- One iteration of the `while` loop body, entered with
`to_visit = current :: rest` (i.e. after `to_visit.pop(0)`). -/
def crawlStep (web : Web) (st : CrawlerState) (current : Url)
    (rest : List Url) : CrawlerState :=
  if current ∈ st.visited_urls then { st with to_visit := rest }
  else
    let st1 := { st with visited_urls := current :: st.visited_urls,
                         to_visit := rest }
    match web current with
    | none => st1
    | some resp =>
      if respOk resp then
        let soup := resp.soup
        let linksMd := extract_links st1 soup
        let tv2 := enqueueLinks st1.visited_urls st1.to_visit linksMd.1
        let sdFlag := extract_structured_data soup current
        let mdS := { linksMd.2 with
          has_schema_markup := linksMd.2.has_schema_markup || sdFlag.2 }
        let pageMd := extract_page_content st1 mdS soup current
        { st1 with
          to_visit := tv2
          pages_data := st1.pages_data ++ [pageMd.1]
          structured_data := st1.structured_data ++ sdFlag.1
          site_metadata := { pageMd.2 with
            pages_crawled := pageMd.2.pages_crawled + 1 } }
      else st1

/-- The `while self.to_visit and len(self.visited_urls) < self.max_pages`
loop, iterated `fuel` times (the state after `k` real iterations is
`crawlLoop web k st`). -/
def crawlLoop (web : Web) : Nat → CrawlerState → CrawlerState
  | 0, st => st
  | fuel + 1, st =>
    match st.to_visit with
    | [] => st
    | current :: rest =>
      if st.visited_urls.length < st.max_pages then
        crawlLoop web fuel (crawlStep web st current rest)
      else st

/-- Post-loop finalization: set `avg_word_count` when any page was
crawled. -/
def finalize (st : CrawlerState) : CrawlerState :=
  if st.site_metadata.pages_crawled > 0 then
    { st with site_metadata := { st.site_metadata with
        avg_word_count := some ((st.site_metadata.total_word_count : ℚ) /
          (st.site_metadata.pages_crawled : ℚ)) } }
  else st

/-- `WebsiteCrawler.crawl`: run the loop, finalize, and return the state
whose `site_metadata`, `pages_data` and `structured_data` fields are the
result bundle. -/
def crawl (web : Web) (fuel : Nat) (st : CrawlerState) : CrawlerState :=
  finalize (crawlLoop web fuel st)

/-- Spec-side reading of the extension filter (§4.1): the URL's *path*
component ends with a non-content extension. -/
def pathEndsWithNonContentExt (u : Url) : Bool :=
  nonContentExts.any (fun e => strEndsWith u.path e)

/-- Code-side extension filter: the *full URL string* ends with a
non-content extension. -/
def urlEndsWithNonContentExt (u : Url) : Bool :=
  nonContentExts.any (fun e => strEndsWith (urlString u) e)

/-- Invariant maintained by every iteration of the crawl loop. -/
def Inv (st : CrawlerState) : Prop :=
  st.visited_urls.length ≤ st.max_pages ∧
  st.pages_data.length ≤ st.visited_urls.length ∧
  st.site_metadata.pages_crawled = st.pages_data.length ∧
  st.site_metadata.total_word_count =
    (st.pages_data.map (fun p => p.word_count)).sum ∧
  st.site_metadata.avg_word_count = none ∧
  (∀ p ∈ st.pages_data, p.url ∈ st.visited_urls) ∧
  (st.pages_data.map (fun p => p.url)).Nodup ∧
  (st.same_domain_only = true →
    (∀ u ∈ st.to_visit, u.netloc = st.domain) ∧
    (∀ p ∈ st.pages_data, p.url.netloc = st.domain) ∧
    st.site_metadata.external_links = 0)

/-! Concrete fixtures used to instantiate theorems with hypotheses. -/

/-- A seed URL, `http://a.com/`. -/
def uA : Url := ⟨"http", "a.com", "/", "", ""⟩

/-- A same-domain page URL, `http://a.com/p`. -/
def uB : Url := ⟨"http", "a.com", "/p", "", ""⟩

/-- `http://a.com/a?x=.css`: its path ends with no non-content extension,
but the full URL string ends with `.css`. -/
def uQ : Url := ⟨"http", "a.com", "/a", "x=.css", ""⟩

/-- `http://a.com/pic.jpg`: both its path and its full URL string end
with `.jpg`. -/
def uJ : Url := ⟨"http", "a.com", "/pic.jpg", "", ""⟩

/-- A fresh session seeded at `uA` with `max_pages = 10`,
`same_domain_only = True`. -/
def st0 : CrawlerState := initState uA 10 true

/-- A small concrete document. -/
def soupA : Soup where
  title := some " Home "
  metaDescTag := some ⟨some "d"⟩
  bodyText := "  hello   world "
  headings := [(2, "B"), (1, "A"), (2, "C")]
  anchors := [⟨"/p", uB⟩, ⟨"mailto:x@a.com", uB⟩]
  paragraphs := ["x", ""]
  questionElems := [⟨"What is X?", some "X is Y."⟩, ⟨"Q2?", none⟩]
  jsonLdBlocks := [none, some "\x7b\x7d"]
  microdataItems := ["T", ""]
  imageCount := 3

/-- A web where only the seed resolves; everything else raises. -/
def webA : Web := fun u =>
  if u = uA then some ⟨200, "text/html", soupA⟩ else none

/-- A web where every fetch raises. -/
def webNone : Web := fun _ => none

/-- A web that always answers HTTP 500. -/
def web500 : Web := fun _ => some ⟨500, "text/html", soupA⟩

/-! ## Lemmas about the URL filter -/

/-- An accepted URL is not in the visited set. -/
theorem valid_not_visited {st : CrawlerState} {u : Url}
    (h : is_valid_url st u = true) : u ∉ st.visited_urls := by
  intro hmem
  simp only [is_valid_url] at h
  split at h
  · cases h
  · rename_i hc1
    exact hc1 (Or.inr hmem)

/-- With same-domain-only on, an accepted URL's host is the seed host. -/
theorem valid_netloc {st : CrawlerState} {u : Url}
    (h : is_valid_url st u = true) (hsd : st.same_domain_only = true) :
    u.netloc = st.domain := by
  by_contra hne
  simp only [is_valid_url] at h
  split at h
  · cases h
  · split at h
    · cases h
    · split at h
      · cases h
      · rename_i hc3
        exact hc3 ⟨hsd, hne⟩

/-! ## Lemmas about `extract_links` -/

/-- One `linkStep` leaves the non-link counters untouched. -/
theorem linkStep_counts (st : CrawlerState) (acc : List Url × SiteMetadata)
    (a : Anchor) :
    (linkStep st acc a).2.pages_crawled = acc.2.pages_crawled ∧
    (linkStep st acc a).2.total_word_count = acc.2.total_word_count ∧
    (linkStep st acc a).2.avg_word_count = acc.2.avg_word_count := by
  unfold linkStep
  dsimp only
  split_ifs <;> simp

/-- With same-domain-only on, `linkStep` never touches `external_links`. -/
theorem linkStep_external (st : CrawlerState) (acc : List Url × SiteMetadata)
    (a : Anchor) (hsd : st.same_domain_only = true) :
    (linkStep st acc a).2.external_links = acc.2.external_links := by
  unfold linkStep
  dsimp only
  split_ifs with hhref hvalid hdom
  · simp
  · exact absurd (valid_netloc hvalid hsd) hdom
  · rfl
  · rfl

/-- Every URL a `linkStep` adds to the accumulator was accepted by the
filter. -/
theorem linkStep_mem (st : CrawlerState) (acc : List Url × SiteMetadata)
    (a : Anchor) {u : Url} (h : u ∈ (linkStep st acc a).1) :
    u ∈ acc.1 ∨ is_valid_url st u = true := by
  unfold linkStep at h
  dsimp only at h
  split_ifs at h with hhref hvalid hdom
  · rcases List.mem_append.mp h with h1 | h2
    · exact Or.inl h1
    · simp only [List.mem_singleton] at h2
      subst h2
      exact Or.inr hvalid
  · rcases List.mem_append.mp h with h1 | h2
    · exact Or.inl h1
    · simp only [List.mem_singleton] at h2
      subst h2
      exact Or.inr hvalid
  · exact Or.inl h
  · exact Or.inl h

/-- Folding `linkStep` leaves the non-link counters untouched. -/
theorem links_foldl_counts (st : CrawlerState) (anchors : List Anchor) :
    ∀ init : List Url × SiteMetadata,
    (anchors.foldl (linkStep st) init).2.pages_crawled = init.2.pages_crawled ∧
    (anchors.foldl (linkStep st) init).2.total_word_count =
      init.2.total_word_count ∧
    (anchors.foldl (linkStep st) init).2.avg_word_count =
      init.2.avg_word_count := by
  induction anchors with
  | nil => intro init; exact ⟨rfl, rfl, rfl⟩
  | cons a as ih =>
    intro init
    simp only [List.foldl_cons]
    obtain ⟨h1, h2, h3⟩ := ih (linkStep st init a)
    obtain ⟨g1, g2, g3⟩ := linkStep_counts st init a
    exact ⟨h1.trans g1, h2.trans g2, h3.trans g3⟩

/-- With same-domain-only on, folding `linkStep` never touches
`external_links`. -/
theorem links_foldl_external (st : CrawlerState) (anchors : List Anchor)
    (hsd : st.same_domain_only = true) :
    ∀ init : List Url × SiteMetadata,
    (anchors.foldl (linkStep st) init).2.external_links =
      init.2.external_links := by
  induction anchors with
  | nil => intro init; rfl
  | cons a as ih =>
    intro init
    simp only [List.foldl_cons]
    exact (ih (linkStep st init a)).trans (linkStep_external st init a hsd)

/-- Every URL folded into the link list was accepted by the filter. -/
theorem links_foldl_mem (st : CrawlerState) (anchors : List Anchor) :
    ∀ (init : List Url × SiteMetadata) (u : Url),
    u ∈ (anchors.foldl (linkStep st) init).1 →
    u ∈ init.1 ∨ is_valid_url st u = true := by
  induction anchors with
  | nil => intro init u h; exact Or.inl h
  | cons a as ih =>
    intro init u h
    simp only [List.foldl_cons] at h
    rcases ih (linkStep st init a) u h with h1 | h2
    · exact linkStep_mem st init a h1
    · exact Or.inr h2

/-- Every URL `extract_links` returns was accepted by the filter. -/
theorem extract_links_valid (st : CrawlerState) (soup : Soup) :
    ∀ u ∈ (extract_links st soup).1, is_valid_url st u = true := by
  intro u hu
  rcases links_foldl_mem st soup.anchors ([], st.site_metadata) u hu with h | h
  · cases h
  · exact h

/-! ## Lemmas about `enqueueLinks` and `updateMetaForPage` -/

/-- A URL in the post-enqueue frontier was already queued or is one of the
extracted links. -/
theorem mem_enqueueLinks (vis : List Url) (links : List Url) :
    ∀ (tv : List Url) (u : Url),
    u ∈ enqueueLinks vis tv links → u ∈ tv ∨ u ∈ links := by
  induction links with
  | nil => intro tv u h; exact Or.inl h
  | cons l ls ih =>
    intro tv u h
    simp only [enqueueLinks, List.foldl_cons] at h ih
    rcases ih _ u h with h1 | h2
    · by_cases hc : l ∉ vis ∧ l ∉ tv
      · rw [if_pos hc] at h1
        rcases List.mem_append.mp h1 with h3 | h4
        · exact Or.inl h3
        · simp only [List.mem_singleton] at h4
          subst h4
          exact Or.inr (List.mem_cons_self _ _)
      · rw [if_neg hc] at h1
        exact Or.inl h1
    · exact Or.inr (List.mem_cons_of_mem _ h2)

/-- `crawlStep` never changes the session configuration fields. -/
theorem crawlStep_config (web : Web) (st : CrawlerState) (current : Url)
    (rest : List Url) :
    (crawlStep web st current rest).start_url = st.start_url ∧
    (crawlStep web st current rest).max_pages = st.max_pages ∧
    (crawlStep web st current rest).same_domain_only = st.same_domain_only ∧
    (crawlStep web st current rest).domain = st.domain := by
  unfold crawlStep
  split
  · exact ⟨rfl, rfl, rfl, rfl⟩
  · cases web current with
    | none => exact ⟨rfl, rfl, rfl, rfl⟩
    | some resp =>
      dsimp only
      split
      · exact ⟨rfl, rfl, rfl, rfl⟩
      · exact ⟨rfl, rfl, rfl, rfl⟩

/-- `crawlLoop` never changes the session configuration fields. -/
theorem crawlLoop_config (web : Web) (fuel : Nat) :
    ∀ st : CrawlerState,
    (crawlLoop web fuel st).start_url = st.start_url ∧
    (crawlLoop web fuel st).max_pages = st.max_pages ∧
    (crawlLoop web fuel st).same_domain_only = st.same_domain_only ∧
    (crawlLoop web fuel st).domain = st.domain := by
  induction fuel with
  | zero => intro st; exact ⟨rfl, rfl, rfl, rfl⟩
  | succ n ih =>
    intro st
    rw [crawlLoop]
    split
    · exact ⟨rfl, rfl, rfl, rfl⟩
    · rename_i current rest heq
      split
      · obtain ⟨i1, i2, i3, i4⟩ := ih (crawlStep web st current rest)
        obtain ⟨c1, c2, c3, c4⟩ := crawlStep_config web st current rest
        exact ⟨i1.trans c1, i2.trans c2, i3.trans c3, i4.trans c4⟩
      · exact ⟨rfl, rfl, rfl, rfl⟩

/-- `updateMetaForPage` does not touch `pages_crawled`. -/
theorem updateMeta_pages_crawled (st : CrawlerState) (md : SiteMetadata)
    (soup : Soup) (url : Url) :
    (updateMetaForPage st md soup url).pages_crawled = md.pages_crawled := by
  unfold updateMetaForPage
  cases soup.metaDescTag <;> split_ifs <;> simp

/-- `updateMetaForPage` adds the page's word count to the running total. -/
theorem updateMeta_total (st : CrawlerState) (md : SiteMetadata)
    (soup : Soup) (url : Url) :
    (updateMetaForPage st md soup url).total_word_count =
      md.total_word_count + pageWordCount soup := by
  unfold updateMetaForPage
  cases soup.metaDescTag <;> split_ifs <;> simp

/-- `updateMetaForPage` does not touch `avg_word_count`. -/
theorem updateMeta_avg (st : CrawlerState) (md : SiteMetadata)
    (soup : Soup) (url : Url) :
    (updateMetaForPage st md soup url).avg_word_count = md.avg_word_count := by
  unfold updateMetaForPage
  cases soup.metaDescTag <;> split_ifs <;> simp

/-- `updateMetaForPage` does not touch `external_links`. -/
theorem updateMeta_external (st : CrawlerState) (md : SiteMetadata)
    (soup : Soup) (url : Url) :
    (updateMetaForPage st md soup url).external_links = md.external_links := by
  unfold updateMetaForPage
  cases soup.metaDescTag <;> split_ifs <;> simp

/-- `extract_links` does not touch `pages_crawled`. -/
theorem extract_links_pages_crawled (st : CrawlerState) (soup : Soup) :
    (extract_links st soup).2.pages_crawled =
      st.site_metadata.pages_crawled :=
  (links_foldl_counts st soup.anchors ([], st.site_metadata)).1

/-- `extract_links` does not touch `total_word_count`. -/
theorem extract_links_total (st : CrawlerState) (soup : Soup) :
    (extract_links st soup).2.total_word_count =
      st.site_metadata.total_word_count :=
  (links_foldl_counts st soup.anchors ([], st.site_metadata)).2.1

/-- `extract_links` does not touch `avg_word_count`. -/
theorem extract_links_avg (st : CrawlerState) (soup : Soup) :
    (extract_links st soup).2.avg_word_count =
      st.site_metadata.avg_word_count :=
  (links_foldl_counts st soup.anchors ([], st.site_metadata)).2.2

/-- With same-domain-only on, `extract_links` does not touch
`external_links`. -/
theorem extract_links_external (st : CrawlerState) (soup : Soup)
    (hsd : st.same_domain_only = true) :
    (extract_links st soup).2.external_links =
      st.site_metadata.external_links :=
  links_foldl_external st soup.anchors hsd ([], st.site_metadata)

/-- The record returned for a page carries that page's URL. -/
theorem buildPageRecord_url (soup : Soup) (url : Url) :
    (buildPageRecord soup url).url = url := rfl

/-- The record returned for a page carries the page's word count. -/
theorem buildPageRecord_wc (soup : Soup) (url : Url) :
    (buildPageRecord soup url).word_count = pageWordCount soup := rfl

/-- The first component of `extract_page_content` is the page record. -/
theorem extract_page_content_fst (st : CrawlerState) (md : SiteMetadata)
    (soup : Soup) (url : Url) :
    (extract_page_content st md soup url).1 = buildPageRecord soup url := rfl

/-- The second component of `extract_page_content` is the updated
metadata. -/
theorem extract_page_content_snd (st : CrawlerState) (md : SiteMetadata)
    (soup : Soup) (url : Url) :
    (extract_page_content st md soup url).2 =
      updateMetaForPage st md soup url := rfl

/-- One loop iteration preserves the crawl invariant, given the loop
guard `|visited| < max_pages`. -/
theorem Inv_crawlStep (web : Web) (st : CrawlerState) (current : Url)
    (rest : List Url) (hinv : Inv st) (htv : st.to_visit = current :: rest)
    (hlt : st.visited_urls.length < st.max_pages) :
    Inv (crawlStep web st current rest) := by
  obtain ⟨h1, h2, h3, h4, h5, h6, h7, h8⟩ := hinv
  have hrest : ∀ u ∈ rest, u ∈ st.to_visit := by
    intro u hu
    rw [htv]
    exact List.mem_cons_of_mem _ hu
  have hcurtv : current ∈ st.to_visit := by
    rw [htv]
    exact List.mem_cons_self _ _
  unfold crawlStep
  split
  · -- the defensive already-visited skip: only the frontier head is dropped
    refine ⟨h1, h2, h3, h4, h5, h6, h7, fun hsd => ?_⟩
    obtain ⟨d1, d2, d3⟩ := h8 hsd
    exact ⟨fun u hu => d1 u (hrest u hu), d2, d3⟩
  · rename_i hcur
    cases hw : web current with
    | none =>
      refine ⟨hlt, h2.trans (Nat.le_succ _), h3, h4, h5,
        fun p hp => List.mem_cons_of_mem _ (h6 p hp), h7, fun hsd => ?_⟩
      obtain ⟨d1, d2, d3⟩ := h8 hsd
      exact ⟨fun u hu => d1 u (hrest u hu), d2, d3⟩
    | some resp =>
      dsimp only
      split
      · -- successful fetch: a page record is appended
        rename_i hok
        simp only [extract_page_content_fst, extract_page_content_snd]
        refine ⟨hlt, ?_, ?_, ?_, ?_, ?_, ?_, fun hsd => ?_⟩
        · simp only [List.length_append, List.length_cons, List.length_nil,
            List.length_singleton]
          omega
        · rw [updateMeta_pages_crawled]
          simp only [extract_links_pages_crawled]
          simp only [List.length_append, List.length_singleton]
          omega
        · rw [updateMeta_total]
          simp only [extract_links_total]
          simp only [List.map_append, List.sum_append, List.map_cons,
            List.map_nil, List.sum_cons, List.sum_nil, buildPageRecord_wc]
          omega
        · rw [updateMeta_avg]
          simp only [extract_links_avg]
          exact h5
        · intro p hp
          rcases List.mem_append.mp hp with hp1 | hp2
          · exact List.mem_cons_of_mem _ (h6 p hp1)
          · simp only [List.mem_singleton] at hp2
            subst hp2
            rw [buildPageRecord_url]
            exact List.mem_cons_self _ _
        · simp only [List.map_append, List.map_cons, List.map_nil,
            buildPageRecord_url]
          rw [List.nodup_append]
          refine ⟨h7, List.nodup_singleton _, ?_⟩
          intro a ha hb
          simp only [List.mem_singleton] at hb
          subst hb
          obtain ⟨p, hp, hpu⟩ := List.mem_map.mp ha
          exact hcur (hpu ▸ h6 p hp)
        · obtain ⟨d1, d2, d3⟩ := h8 hsd
          refine ⟨?_, ?_, ?_⟩
          · intro u hu
            rcases mem_enqueueLinks _ _ _ u hu with hu1 | hu2
            · exact d1 u (hrest u hu1)
            · have hv := extract_links_valid _ _ u hu2
              exact valid_netloc hv hsd
          · intro p hp
            rcases List.mem_append.mp hp with hp1 | hp2
            · exact d2 p hp1
            · simp only [List.mem_singleton] at hp2
              subst hp2
              rw [buildPageRecord_url]
              exact d1 current hcurtv
          · rw [updateMeta_external]
            dsimp only
            rw [extract_links_external]
            · exact d3
            · exact hsd
      · -- failed fetch: only `visited` grows
        refine ⟨hlt, h2.trans (Nat.le_succ _), h3, h4, h5,
          fun p hp => List.mem_cons_of_mem _ (h6 p hp), h7, fun hsd => ?_⟩
        obtain ⟨d1, d2, d3⟩ := h8 hsd
        exact ⟨fun u hu => d1 u (hrest u hu), d2, d3⟩

/-- The crawl invariant is preserved by any number of loop iterations. -/
theorem Inv_crawlLoop (web : Web) (fuel : Nat) :
    ∀ st : CrawlerState, Inv st → Inv (crawlLoop web fuel st) := by
  induction fuel with
  | zero => intro st h; exact h
  | succ n ih =>
    intro st h
    rw [crawlLoop]
    split
    · exact h
    · rename_i current rest heq
      split
      · rename_i hlt
        exact ih _ (Inv_crawlStep web st current rest h heq hlt)
      · exact h

/-- The invariant holds in the state `__init__` builds. -/
theorem Inv_initState (start_url : Url) (max_pages : Nat)
    (same_domain_only : Bool) :
    Inv (initState start_url max_pages same_domain_only) := by
  refine ⟨Nat.zero_le _, Nat.le_refl _, rfl, rfl, rfl, ?_, List.nodup_nil,
    fun _ => ⟨?_, ?_, rfl⟩⟩
  · intro p hp
    cases hp
  · intro u hu
    simp only [initState, List.mem_singleton] at hu
    subst hu
    rfl
  · intro p hp
    cases hp

/-- `finalize` only rewrites `avg_word_count`; every other output field is
kept. -/
theorem finalize_keeps (st : CrawlerState) :
    (finalize st).pages_data = st.pages_data ∧
    (finalize st).site_metadata.pages_crawled =
      st.site_metadata.pages_crawled ∧
    (finalize st).site_metadata.total_word_count =
      st.site_metadata.total_word_count ∧
    (finalize st).site_metadata.external_links =
      st.site_metadata.external_links ∧
    (finalize st).max_pages = st.max_pages ∧
    (finalize st).same_domain_only = st.same_domain_only ∧
    (finalize st).domain = st.domain := by
  unfold finalize
  split_ifs <;> exact ⟨rfl, rfl, rfl, rfl, rfl, rfl, rfl⟩

/-- The average `finalize` writes, as a function of the pre-loop state. -/
theorem finalize_avg (st : CrawlerState) :
    (finalize st).site_metadata.avg_word_count =
      (if 0 < st.site_metadata.pages_crawled then
        some ((st.site_metadata.total_word_count : ℚ) /
          (st.site_metadata.pages_crawled : ℚ))
      else st.site_metadata.avg_word_count) := by
  unfold finalize
  split_ifs <;> rfl

/-! ## Claim theorems -/

/-- Claim C1: for every crawl session, at termination of `crawl()` the
result bundle satisfies `len(pages) ≤ max_pages`, and the metadata's
`pages_crawled` equals `len(pages)`.  (Proved for every fuel value, hence
at termination however many iterations the loop runs.) -/
theorem crawl_page_budget (web : Web) (fuel : Nat) (start_url : Url)
    (max_pages : Nat) (same_domain_only : Bool) :
    (crawl web fuel
        (initState start_url max_pages same_domain_only)).pages_data.length
        ≤ max_pages ∧
    (crawl web fuel
        (initState start_url max_pages
          same_domain_only)).site_metadata.pages_crawled =
      (crawl web fuel
        (initState start_url max_pages
          same_domain_only)).pages_data.length := by
  obtain ⟨h1, h2, h3, h4, h5, h6, h7, h8⟩ :=
    Inv_crawlLoop web fuel _
      (Inv_initState start_url max_pages same_domain_only)
  obtain ⟨f1, f2, f3, f4, f5, f6, f7⟩ :=
    finalize_keeps
      (crawlLoop web fuel (initState start_url max_pages same_domain_only))
  obtain ⟨c1, c2, c3, c4⟩ :=
    crawlLoop_config web fuel (initState start_url max_pages same_domain_only)
  unfold crawl
  rw [f1, f2]
  refine ⟨?_, h3⟩
  have hb := h2.trans h1
  rw [c2] at hb
  exact hb

/-- Claim C2: no URL appears twice in the `pages` list of the result
bundle — each URL is recorded at most once. -/
theorem crawl_pages_nodup (web : Web) (fuel : Nat) (start_url : Url)
    (max_pages : Nat) (same_domain_only : Bool) :
    ((crawl web fuel
        (initState start_url max_pages same_domain_only)).pages_data.map
      (fun p => p.url)).Nodup := by
  obtain ⟨h1, h2, h3, h4, h5, h6, h7, h8⟩ :=
    Inv_crawlLoop web fuel _
      (Inv_initState start_url max_pages same_domain_only)
  obtain ⟨f1, f2, f3, f4, f5, f6, f7⟩ :=
    finalize_keeps
      (crawlLoop web fuel (initState start_url max_pages same_domain_only))
  unfold crawl
  rw [f1]
  exact h7

/-- Claim C3: at termination `total_word_count` is the sum of the pages'
`word_count`s; `avg_word_count` is `total_word_count / pages_crawled` when
`pages_crawled > 0` and is absent (`none`) otherwise. -/
theorem crawl_word_count_totals (web : Web) (fuel : Nat) (start_url : Url)
    (max_pages : Nat) (same_domain_only : Bool) :
    (crawl web fuel
        (initState start_url max_pages
          same_domain_only)).site_metadata.total_word_count =
      ((crawl web fuel
          (initState start_url max_pages same_domain_only)).pages_data.map
        (fun p => p.word_count)).sum ∧
    (crawl web fuel
        (initState start_url max_pages
          same_domain_only)).site_metadata.avg_word_count =
      (if 0 < (crawl web fuel
          (initState start_url max_pages
            same_domain_only)).site_metadata.pages_crawled then
        some (((crawl web fuel
            (initState start_url max_pages
              same_domain_only)).site_metadata.total_word_count : ℚ) /
          ((crawl web fuel
            (initState start_url max_pages
              same_domain_only)).site_metadata.pages_crawled : ℚ))
      else none) := by
  obtain ⟨h1, h2, h3, h4, h5, h6, h7, h8⟩ :=
    Inv_crawlLoop web fuel _
      (Inv_initState start_url max_pages same_domain_only)
  obtain ⟨f1, f2, f3, f4, f5, f6, f7⟩ :=
    finalize_keeps
      (crawlLoop web fuel (initState start_url max_pages same_domain_only))
  unfold crawl
  rw [f1, f2, f3, finalize_avg, h5]
  exact ⟨h4, rfl⟩

/-- Claim C8: with same-domain-only enabled, every record in `pages` has a
URL whose host equals the seed URL's host. -/
theorem crawl_same_domain_hosts (web : Web) (fuel : Nat) (start_url : Url)
    (max_pages : Nat) :
    ((crawl web fuel (initState start_url max_pages true)).pages_data.all
      (fun p => p.url.netloc == start_url.netloc)) = true := by
  obtain ⟨h1, h2, h3, h4, h5, h6, h7, h8⟩ :=
    Inv_crawlLoop web fuel _ (Inv_initState start_url max_pages true)
  obtain ⟨f1, f2, f3, f4, f5, f6, f7⟩ :=
    finalize_keeps (crawlLoop web fuel (initState start_url max_pages true))
  obtain ⟨c1, c2, c3, c4⟩ :=
    crawlLoop_config web fuel (initState start_url max_pages true)
  have hsd : (crawlLoop web fuel
      (initState start_url max_pages true)).same_domain_only = true := by
    rw [c3]
    rfl
  obtain ⟨d1, d2, d3⟩ := h8 hsd
  unfold crawl
  rw [f1, List.all_eq_true]
  intro p hp
  rw [beq_iff_eq, d2 p hp, c4]
  rfl

/-- Claim C10: with same-domain-only enabled, the `external_links` counter
is 0 at termination — and, the theorem holding for every fuel value, at
every intermediate point of the crawl as well. -/
theorem crawl_external_links_zero (web : Web) (fuel : Nat) (start_url : Url)
    (max_pages : Nat) :
    (crawl web fuel
        (initState start_url max_pages true)).site_metadata.external_links
      = 0 := by
  obtain ⟨h1, h2, h3, h4, h5, h6, h7, h8⟩ :=
    Inv_crawlLoop web fuel _ (Inv_initState start_url max_pages true)
  obtain ⟨f1, f2, f3, f4, f5, f6, f7⟩ :=
    finalize_keeps (crawlLoop web fuel (initState start_url max_pages true))
  obtain ⟨c1, c2, c3, c4⟩ :=
    crawlLoop_config web fuel (initState start_url max_pages true)
  have hsd : (crawlLoop web fuel
      (initState start_url max_pages true)).same_domain_only = true := by
    rw [c3]
    rfl
  obtain ⟨d1, d2, d3⟩ := h8 hsd
  unfold crawl
  rw [f4]
  exact d3

/-- Claim C4: a frontier URL whose fetch fails (request raises, non-200
status, or non-HTML content type) is skipped: no page record is appended,
none of its links are enqueued (the frontier becomes exactly the remaining
tail), and the site metadata — `pages_crawled` included — is unchanged. -/
theorem crawlStep_fetch_failure (web : Web) (st : CrawlerState)
    (current : Url) (rest : List Url) (hcur : current ∉ st.visited_urls)
    (hfail : fetchFails web current = true) :
    (crawlStep web st current rest).pages_data = st.pages_data ∧
    (crawlStep web st current rest).to_visit = rest ∧
    (crawlStep web st current rest).site_metadata = st.site_metadata := by
  unfold crawlStep
  rw [if_neg hcur]
  unfold fetchFails at hfail
  cases hw : web current with
  | none => exact ⟨rfl, rfl, rfl⟩
  | some resp =>
    rw [hw] at hfail
    dsimp only at hfail ⊢
    rw [Bool.not_eq_true'] at hfail
    rw [if_neg (by simp [hfail])]
    exact ⟨rfl, rfl, rfl⟩

/-- Witness for C4 at a concrete failing fetch. -/
theorem crawlStep_fetch_failure_w :
    uA ∉ st0.visited_urls ∧ fetchFails webNone uA = true ∧
    (crawlStep webNone st0 uA []).pages_data = st0.pages_data ∧
    (crawlStep webNone st0 uA []).to_visit = [] ∧
    (crawlStep webNone st0 uA []).site_metadata = st0.site_metadata := by
  obtain ⟨e1, e2, e3⟩ :=
    crawlStep_fetch_failure webNone st0 uA [] (by decide) rfl
  exact ⟨by decide, rfl, e1, e2, e3⟩

/-- Claim C5, as stated, fails on the code: `is_valid_url` is a pure
predicate, so re-running it on an accepted URL with the SAME visited set
accepts again instead of rejecting. -/
theorem filter_rerun_counterexample :
    ¬ (∀ (st : CrawlerState) (u : Url),
        is_valid_url st u = true → is_valid_url st u = false) := by
  intro h
  have h1 : is_valid_url st0 uB = true := by decide
  exact absurd (h st0 uB h1) (by decide)

/-- Claim C5 (amended): after the caller inserts an accepted URL into the
visited set, re-running the filter on that URL rejects it. -/
theorem filter_rejects_after_insert (st : CrawlerState) (u : Url)
    (hacc : is_valid_url st u = true) :
    is_valid_url { st with visited_urls := u :: st.visited_urls } u
      = false := by
  simp [is_valid_url]

/-- Witness for the amended C5 at a concrete accepted URL. -/
theorem filter_rejects_after_insert_w :
    is_valid_url st0 uB = true ∧
    is_valid_url { st0 with visited_urls := uB :: st0.visited_urls } uB
      = false :=
  ⟨by decide, filter_rejects_after_insert st0 uB (by decide)⟩

/-- Claim C6, as stated, fails on the code: `uQ`'s path ends with no
non-content extension, all the claim's guards hold, yet the filter rejects
it, because the code applies `endswith` to the full URL string (which here
ends in `.css` via the query). -/
theorem filter_extension_counterexample :
    urlString uQ ≠ "" ∧ uQ ∉ st0.visited_urls ∧ uQ.fragment = "" ∧
    uQ.netloc = st0.domain ∧ st0.same_domain_only = true ∧
    pathEndsWithNonContentExt uQ = false ∧
    is_valid_url st0 uQ = false := by
  refine ⟨by decide, by decide, rfl, by decide, rfl, by decide, by decide⟩

/-- Claim C6 (amended): for a non-empty, unvisited, fragment-free,
in-scope URL, the filter rejects iff the FULL URL STRING ends with one of
the enumerated non-content extensions. -/
theorem filter_rejects_iff_urlString_ext (st : CrawlerState) (u : Url)
    (hne : urlString u ≠ "") (hnv : u ∉ st.visited_urls)
    (hf : u.fragment = "")
    (hdom : st.same_domain_only = true → u.netloc = st.domain) :
    (is_valid_url st u = false ↔ urlEndsWithNonContentExt u = true) := by
  unfold is_valid_url urlEndsWithNonContentExt
  rw [if_neg (by rintro (hc | hc); exacts [hne hc, hnv hc])]
  rw [if_neg (by simp [hf])]
  rw [if_neg (by rintro ⟨hs, hn⟩; exact hn (hdom hs))]
  split_ifs with h
  · simp [h]
  · simp [h]

/-- Witness for the amended C6 at `http://a.com/pic.jpg`. -/
theorem filter_rejects_iff_urlString_ext_w :
    urlString uJ ≠ "" ∧ uJ ∉ st0.visited_urls ∧ uJ.fragment = "" ∧
    (is_valid_url st0 uJ = false ↔ urlEndsWithNonContentExt uJ = true) :=
  ⟨by decide, by decide, rfl,
    filter_rejects_iff_urlString_ext st0 uJ (by decide) (by decide) rfl
      (fun _ => by decide)⟩

/-- The title field of the returned page record. -/
theorem buildPageRecord_title (soup : Soup) (url : Url) :
    (buildPageRecord soup url).title = pageTitle soup := rfl

/-- The meta-description field of the returned page record. -/
theorem buildPageRecord_meta (soup : Soup) (url : Url) :
    (buildPageRecord soup url).meta_description = pageMetaDesc soup := rfl

/-- The headings field of the returned page record. -/
theorem buildPageRecord_headings (soup : Soup) (url : Url) :
    (buildPageRecord soup url).headings = pageHeadings soup := rfl

/-- Claim C7: the extractor's title field is the document's (trimmed)
title text, `""` when the title is absent; its meta-description field is
the meta tag's `content` attribute, `""` when the tag is absent (and, via
`getD`, when the attribute is absent). -/
theorem extract_title_and_meta (st : CrawlerState) (md : SiteMetadata)
    (soup : Soup) (url : Url) :
    (soup.title = none →
      (extract_page_content st md soup url).1.title = "") ∧
    (∀ t, soup.title = some t →
      (extract_page_content st md soup url).1.title = strTrim t) ∧
    (soup.metaDescTag = none →
      (extract_page_content st md soup url).1.meta_description = "") ∧
    (∀ m, soup.metaDescTag = some m →
      (extract_page_content st md soup url).1.meta_description =
        m.content.getD "") := by
  refine ⟨?_, ?_, ?_, ?_⟩
  · intro h
    rw [extract_page_content_fst, buildPageRecord_title]
    unfold pageTitle
    rw [h]
  · intro t h
    rw [extract_page_content_fst, buildPageRecord_title]
    unfold pageTitle
    rw [h]
  · intro h
    rw [extract_page_content_fst, buildPageRecord_meta]
    unfold pageMetaDesc
    rw [h]
  · intro m h
    rw [extract_page_content_fst, buildPageRecord_meta]
    unfold pageMetaDesc
    rw [h]

/-- Witness for C7 on a concrete document with a title and a
meta-description tag. -/
theorem extract_title_and_meta_w :
    soupA.title = some " Home " ∧ soupA.metaDescTag = some ⟨some "d"⟩ ∧
    (extract_page_content st0 st0.site_metadata soupA uA).1.title =
      strTrim " Home " ∧
    (extract_page_content st0 st0.site_metadata soupA uA).1.meta_description
      = (some "d" : Option String).getD "" :=
  ⟨rfl, rfl,
    (extract_title_and_meta st0 st0.site_metadata soupA uA).2.1 " Home " rfl,
    (extract_title_and_meta st0 st0.site_metadata soupA uA).2.2.2
      ⟨some "d"⟩ rfl⟩

/-- Every entry of a heading block carries that block's level. -/
theorem headingBlock_level (soup : Soup) (i : Nat) :
    ∀ h ∈ headingBlock soup i, h.level = i := by
  intro h hh
  simp only [headingBlock, List.mem_map] at hh
  obtain ⟨p, hp, rfl⟩ := hh
  rfl

/-- Within one heading block, levels are (trivially) monotone. -/
theorem headingBlock_pairwise (soup : Soup) (i : Nat) :
    (headingBlock soup i).Pairwise (fun a b => a.level ≤ b.level) := by
  refine List.pairwise_of_forall_mem_list ?_
  intro a ha b hb
  rw [headingBlock_level soup i a ha, headingBlock_level soup i b hb]

/-- Entries of a lower-level block precede-compatibly relate to entries of
a higher-level block. -/
theorem headingBlock_cross (soup : Soup) {i j : Nat} (hij : i ≤ j) :
    ∀ a ∈ headingBlock soup i, ∀ b ∈ headingBlock soup j,
      a.level ≤ b.level := by
  intro a ha b hb
  rw [headingBlock_level soup i a ha, headingBlock_level soup j b hb]
  exact hij

/-- The page's heading list is sorted by level. -/
theorem pageHeadings_pairwise (soup : Soup) :
    (pageHeadings soup).Pairwise (fun a b => a.level ≤ b.level) := by
  unfold pageHeadings
  refine List.pairwise_append.mpr
    ⟨List.pairwise_append.mpr
      ⟨List.pairwise_append.mpr
        ⟨List.pairwise_append.mpr
          ⟨List.pairwise_append.mpr
            ⟨headingBlock_pairwise soup 1, headingBlock_pairwise soup 2,
              headingBlock_cross soup (by omega)⟩,
            headingBlock_pairwise soup 3, ?_⟩,
          headingBlock_pairwise soup 4, ?_⟩,
        headingBlock_pairwise soup 5, ?_⟩,
      headingBlock_pairwise soup 6, ?_⟩
  · intro a ha b hb
    have hlb := headingBlock_level soup 3 b hb
    simp only [List.mem_append, or_assoc] at ha
    rcases ha with ha | ha
    · have hla := headingBlock_level soup 1 a ha
      omega
    · have hla := headingBlock_level soup 2 a ha
      omega
  · intro a ha b hb
    have hlb := headingBlock_level soup 4 b hb
    simp only [List.mem_append, or_assoc] at ha
    rcases ha with ha | ha | ha
    · have hla := headingBlock_level soup 1 a ha
      omega
    · have hla := headingBlock_level soup 2 a ha
      omega
    · have hla := headingBlock_level soup 3 a ha
      omega
  · intro a ha b hb
    have hlb := headingBlock_level soup 5 b hb
    simp only [List.mem_append, or_assoc] at ha
    rcases ha with ha | ha | ha | ha
    · have hla := headingBlock_level soup 1 a ha
      omega
    · have hla := headingBlock_level soup 2 a ha
      omega
    · have hla := headingBlock_level soup 3 a ha
      omega
    · have hla := headingBlock_level soup 4 a ha
      omega
  · intro a ha b hb
    have hlb := headingBlock_level soup 6 b hb
    simp only [List.mem_append, or_assoc] at ha
    rcases ha with ha | ha | ha | ha | ha
    · have hla := headingBlock_level soup 1 a ha
      omega
    · have hla := headingBlock_level soup 2 a ha
      omega
    · have hla := headingBlock_level soup 3 a ha
      omega
    · have hla := headingBlock_level soup 4 a ha
      omega
    · have hla := headingBlock_level soup 5 a ha
      omega

/-- Filtering a heading block at a level keeps it whole or empties it. -/
theorem filter_headingBlock (soup : Soup) (j i : Nat) :
    (headingBlock soup j).filter (fun h => h.level = i) =
      if j = i then headingBlock soup j else [] := by
  by_cases hji : j = i
  · subst hji
    rw [if_pos rfl, List.filter_eq_self]
    intro a ha
    simp [headingBlock_level soup j a ha]
  · rw [if_neg hji]
    unfold headingBlock
    rw [List.filter_map]
    simp [Function.comp, hji]

/-- Filtering the page's heading list at level `i` (1 ≤ i ≤ 6) recovers
exactly the document-order level-`i` headings. -/
theorem pageHeadings_filter (soup : Soup) (i : Nat) (h1i : 1 ≤ i)
    (hi6 : i ≤ 6) :
    (pageHeadings soup).filter (fun h => h.level = i) =
      (soup.headings.filter (fun p => p.1 = i)).map
        (fun p => Heading.mk i p.2) := by
  unfold pageHeadings
  simp only [List.filter_append, filter_headingBlock]
  interval_cases i <;> simp [headingBlock]

/-- Claim C9: the heading list is grouped by level outer-to-inner — levels
are monotone along the list (every level-`i` entry precedes every
level-`j` entry for `i < j`), and the level-`i` entries appear in document
order. -/
theorem headings_grouped_by_level (st : CrawlerState) (md : SiteMetadata)
    (soup : Soup) (url : Url) :
    (extract_page_content st md soup url).1.headings.Pairwise
      (fun a b => a.level ≤ b.level) ∧
    (∀ i, 1 ≤ i → i ≤ 6 →
      (extract_page_content st md soup url).1.headings.filter
          (fun h => h.level = i) =
        (soup.headings.filter (fun p => p.1 = i)).map
          (fun p => Heading.mk i p.2)) := by
  rw [extract_page_content_fst, buildPageRecord_headings]
  exact ⟨pageHeadings_pairwise soup,
    fun i h1i hi6 => pageHeadings_filter soup i h1i hi6⟩

/-- Witness for C9 at a concrete document and level 2. -/
theorem headings_grouped_by_level_w :
    1 ≤ 2 ∧ 2 ≤ 6 ∧
    (extract_page_content st0 st0.site_metadata soupA uA).1.headings.filter
        (fun h => h.level = 2) =
      (soupA.headings.filter (fun p => p.1 = 2)).map
        (fun p => Heading.mk 2 p.2) :=
  ⟨by decide, by decide,
    (headings_grouped_by_level st0 st0.site_metadata soupA uA).2 2
      (by decide) (by decide)⟩

end GeoWeb
